import Mathlib

/-!
Shallow embedding of the core of the `klama` diagnostic assistant:
the command validator and stage splitter (`internal/executer/terminal.go`),
the memoizing executer (`TerminalExecuter.Run`), the structured-response
retry protocol (`internal/llm/llm.go`, `Model.GuidedAsk`) and the session
loop (`agent.StartSession` / `agent.handleCommand`).

Strings are modelled as Lean `String` (lists of unicode scalar values,
matching Go's rune-by-rune iteration); the executed-command map is an
association list; the external shell and the model transport are oracles
passed in as functions.
-/

namespace Klama

/-- Go `unicode.IsSpace` on a rune: Latin-1 spaces plus the Unicode
White_Space code points, as used by `strings.TrimSpace` and the
whitespace tokenizer `splitCommand`. -/
def goIsSpace (c : Char) : Bool :=
  c = ' ' || c = '\t' || c = '\n' || c.toNat = 11 || c.toNat = 12 || c = '\r' ||
  c.toNat = 0x85 || c.toNat = 0xA0 || c.toNat = 0x1680 ||
  (0x2000 ≤ c.toNat && c.toNat ≤ 0x200A) ||
  c.toNat = 0x2028 || c.toNat = 0x2029 || c.toNat = 0x202F ||
  c.toNat = 0x205F || c.toNat = 0x3000

/-- Go `strings.TrimSpace`: drop leading and trailing `unicode.IsSpace` runes. -/
def goTrimSpace (s : String) : String :=
  String.mk (((s.data.dropWhile goIsSpace).reverse.dropWhile goIsSpace).reverse)

/-- The validation errors declared at the top of `terminal.go`
(`ErrEmptyCommand` … `ErrSubCommandNotAllowed`).  `commandNotAllowed` and
`subCommandNotAllowed` carry the offending token, mirroring
`fmt.Errorf("%w: %s", …)`. -/
inductive ValidationError where
  | emptyCommand
  | commandChaining
  | commandSubstitution
  | redirection
  | unmatchedQuote
  | invalidMainCommand
  | commandNotAllowed (cmd : String)
  | subCommandNotAllowed (cmd : String)
deriving DecidableEq, Repr

/-- `type Command struct { Parts []string }`. -/
structure Command where
  parts : List String
deriving DecidableEq, Repr

/-- `type TerminalExecuterType struct` — the allow-list policy. -/
structure TerminalExecuterType where
  allowedCommands : List String
  allowedSubCommands : List String
  allowedPipedCommands : List String
deriving DecidableEq, Repr

/-- `KubernetesExecuterType` from `terminal.go`. -/
def KubernetesExecuterType : TerminalExecuterType :=
  { allowedCommands := ["kubectl"]
    allowedSubCommands := ["get", "describe", "logs", "top", "explain"]
    allowedPipedCommands := ["grep", "awk", "sort", "uniq", "head", "tail", "cut"] }

/-- `type TerminalExecuter struct { executedCommands map[string]string; executerType … }`.
The map is modelled as an association list (insertion order is irrelevant
to lookups). -/
structure TerminalExecuter where
  executedCommands : List (String × String)
  executerType : TerminalExecuterType
deriving DecidableEq, Repr

/-- Map lookup `tx.executedCommands[command]`. -/
def lookupCache (cache : List (String × String)) (k : String) : Option String :=
  (cache.find? (fun p => p.1 = k)).map (fun p => p.2)

/-- Recursive core of `splitCommand`: whitespace tokenizer with a single
`inQuote` rune (0 marked by `none`) and a backslash escape; quote and
escape characters are kept in the token. -/
def splitCommandAux : List Char → List Char → List String → Option Char → Bool → List String
  | [], current, parts, _, _ =>
      parts ++ (if current = [] then [] else [String.mk current])
  | c :: cs, current, parts, inQuote, escaped =>
      if escaped then
        splitCommandAux cs (current ++ [c]) parts inQuote false
      else if c = '\\' then
        splitCommandAux cs (current ++ [c]) parts inQuote true
      else
        match inQuote with
        | some q =>
            if c = q then splitCommandAux cs (current ++ [c]) parts none false
            else splitCommandAux cs (current ++ [c]) parts (some q) false
        | none =>
            if c = '\'' || c = '"' then
              splitCommandAux cs (current ++ [c]) parts (some c) false
            else if goIsSpace c then
              if current = [] then splitCommandAux cs [] parts none false
              else splitCommandAux cs [] (parts ++ [String.mk current]) none false
            else
              splitCommandAux cs (current ++ [c]) parts none false

/-- `splitCommand` from `terminal.go`: split a stage into whitespace-separated
tokens, quote- and escape-aware. -/
def splitCommand (command : String) : List String :=
  splitCommandAux command.data [] [] none false

/-- Recursive core of `splitCommandsByPipe`: split on unquoted `|`.
A `'` always toggles `inSingleQuote`; a `"` toggles `inDoubleQuote` only
when `inSingleQuote` is closed; at an unquoted `|` the current segment is
pushed unconditionally (trimmed and tokenized), at end of input only a
non-empty segment is pushed. -/
def splitCommandsByPipeAux : List Char → List Char → List Command → Bool → Bool → Bool → List Command
  | [], current, commands, _, _, _ =>
      commands ++
        (if current = [] then []
         else [{ parts := splitCommand (goTrimSpace (String.mk current)) }])
  | c :: cs, current, commands, inS, inD, escaped =>
      if escaped then
        splitCommandsByPipeAux cs (current ++ [c]) commands inS inD false
      else if c = '\\' then
        splitCommandsByPipeAux cs (current ++ [c]) commands inS inD true
      else if c = '\'' then
        splitCommandsByPipeAux cs (current ++ [c]) commands (!inS) inD false
      else if c = '"' then
        splitCommandsByPipeAux cs (current ++ [c]) commands inS (if inS then inD else !inD) false
      else if c = '|' then
        if !inS && !inD then
          splitCommandsByPipeAux cs []
            (commands ++ [{ parts := splitCommand (goTrimSpace (String.mk current)) }]) inS inD false
        else
          splitCommandsByPipeAux cs (current ++ [c]) commands inS inD false
      else
        splitCommandsByPipeAux cs (current ++ [c]) commands inS inD false

/-- `splitCommandsByPipe` from `terminal.go`. -/
def splitCommandsByPipe (command : String) : List Command :=
  splitCommandsByPipeAux command.data [] [] false false false

/-- Recursive core of `validateArgument`: char-by-char scan of one token.
`'` toggles single-quote state only outside double quotes, `"` toggles
double-quote state only outside single quotes; unquoted `;`/`&` is
chaining, backtick or `$` immediately followed by `(` is substitution,
`>`/`<` is redirection; a quote left open at the end is an unmatched
quote. -/
def validateArgumentAux : List Char → Bool → Bool → Bool → Option ValidationError
  | [], inS, inD, _ =>
      if inS || inD then some .unmatchedQuote else none
  | c :: cs, inS, inD, escaped =>
      if escaped then validateArgumentAux cs inS inD false
      else if c = '\\' then validateArgumentAux cs inS inD true
      else if c = '\'' then validateArgumentAux cs (if inD then inS else !inS) inD false
      else if c = '"' then validateArgumentAux cs inS (if inS then inD else !inD) false
      else if c = ';' || c = '&' then
        if !inS && !inD then some .commandChaining
        else validateArgumentAux cs inS inD false
      else if c = '`' then
        if !inS && !inD then some .commandSubstitution
        else validateArgumentAux cs inS inD false
      else if c = '$' then
        if !inS && !inD && cs.head? = some '(' then some .commandSubstitution
        else validateArgumentAux cs inS inD false
      else if c = '>' || c = '<' then
        if !inS && !inD then some .redirection
        else validateArgumentAux cs inS inD false
      else validateArgumentAux cs inS inD false

/-- `validateArgument` from `terminal.go`. -/
def validateArgument (arg : String) : Option ValidationError :=
  validateArgumentAux arg.data false false false

/-- `validateCommandArguments`: first error over the tokens, in order. -/
def validateCommandArguments : List String → Option ValidationError
  | [] => none
  | a :: as =>
      match validateArgument a with
      | some e => some e
      | none => validateCommandArguments as

/-- `validateSingleCommand` from `terminal.go`: empty-stage check, token
minimum, allow-list checks (primary command, optional subcommand for the
main stage, piped command otherwise), then the per-token argument scan.
The inner `[]` branch is unreachable: when the subcommand list is
configured the minimum-length guard has already ensured two tokens. -/
def validateSingleCommand (t : TerminalExecuterType) (cmd : Command) (isMainCommand : Bool) :
    Option ValidationError :=
  match cmd.parts with
  | [] => some .emptyCommand
  | p0 :: rest =>
      let checkSubCmd : Bool := t.allowedSubCommands.length > 0
      let minNumParts : Nat := if t.allowedSubCommands.length > 0 then 2 else 1
      if isMainCommand then
        if (p0 :: rest).length < minNumParts then some .invalidMainCommand
        else if !(t.allowedCommands.contains p0) then some (.commandNotAllowed p0)
        else if checkSubCmd then
          match rest with
          | [] => some .invalidMainCommand
          | p1 :: _ =>
              if !(t.allowedSubCommands.contains p1) then some (.subCommandNotAllowed p1)
              else validateCommandArguments (p0 :: rest)
        else validateCommandArguments (p0 :: rest)
      else
        if !(t.allowedPipedCommands.contains p0) then some (.commandNotAllowed p0)
        else validateCommandArguments (p0 :: rest)

/-- The stage loop of `Validate`: `for i, cmd := range cmds { … i == 0 … }`. -/
def validateStages (t : TerminalExecuterType) : List Command → Bool → Option ValidationError
  | [], _ => none
  | c :: cs, isFirst =>
      match validateSingleCommand t c isFirst with
      | some e => some e
      | none => validateStages t cs false

/-- `TerminalExecuter.Validate`: empty check, then the executed-command
cache shortcut (a cache hit is accepted outright), then the stage loop. -/
def Validate (tx : TerminalExecuter) (command : String) : Option ValidationError :=
  if command = "" then some .emptyCommand
  else if (lookupCache tx.executedCommands command).isSome then none
  else validateStages tx.executerType (splitCommandsByPipe command) true

/-! ### Spec-side scanners used to compare against the stage splitter -/

/-- Stage splitter written from the claim's words, for comparison with
`splitCommandsByPipe`: quotes are strictly non-nesting toggles, so a
quote of one type seen while a quote of the other type is open changes
no state at all (in particular a `'` inside double quotes is inert). -/
def pipeSplitClaimAux : List Char → List Char → List Command → Bool → Bool → Bool → List Command
  | [], current, commands, _, _, _ =>
      commands ++
        (if current = [] then []
         else [{ parts := splitCommand (goTrimSpace (String.mk current)) }])
  | c :: cs, current, commands, inS, inD, escaped =>
      if escaped then
        pipeSplitClaimAux cs (current ++ [c]) commands inS inD false
      else if c = '\\' then
        pipeSplitClaimAux cs (current ++ [c]) commands inS inD true
      else if c = '\'' then
        pipeSplitClaimAux cs (current ++ [c]) commands (if inD then inS else !inS) inD false
      else if c = '"' then
        pipeSplitClaimAux cs (current ++ [c]) commands inS (if inS then inD else !inD) false
      else if c = '|' then
        if !inS && !inD then
          pipeSplitClaimAux cs []
            (commands ++ [{ parts := splitCommand (goTrimSpace (String.mk current)) }]) inS inD false
        else
          pipeSplitClaimAux cs (current ++ [c]) commands inS inD false
      else
        pipeSplitClaimAux cs (current ++ [c]) commands inS inD false

/-- The claim's version of the stage splitter (quotes never act inside a
quote of the other type). -/
def pipeSplitClaim (command : String) : List Command :=
  pipeSplitClaimAux command.data [] [] false false false

/-- Scanner state of the pipe splitter, for the fold-based restatement. -/
structure PipeScanState where
  segs : List (List Char)
  cur : List Char
  single : Bool
  double : Bool
  escaped : Bool
deriving DecidableEq, Repr

/-- One step of the amended quote discipline: an escaped character is
passed through; `\\` arms the escape; `'` always toggles single-quote
state (even inside double quotes); `"` toggles double-quote state only
while no single quote is open; `|` ends the current segment exactly when
neither quote is open (and it is not escaped); everything else is
accumulated. -/
def pipeScanStep (st : PipeScanState) (c : Char) : PipeScanState :=
  if st.escaped then { st with cur := st.cur ++ [c], escaped := false }
  else if c = '\\' then { st with cur := st.cur ++ [c], escaped := true }
  else if c = '\'' then { st with cur := st.cur ++ [c], single := !st.single }
  else if c = '"' then { st with cur := st.cur ++ [c], double := if st.single then st.double else !st.double }
  else if c = '|' then
    if !st.single && !st.double then { st with segs := st.segs ++ [st.cur], cur := [] }
    else { st with cur := st.cur ++ [c] }
  else { st with cur := st.cur ++ [c] }

/-- Raw segments produced by the amended scanner: a trailing non-empty
segment is kept, a trailing empty one is not. -/
def pipeScanSegs (st : PipeScanState) : List (List Char) :=
  st.segs ++ (if st.cur = [] then [] else [st.cur])

/-- A stage built from a raw segment, as the pipe splitter does it. -/
def mkStage (seg : List Char) : Command :=
  { parts := splitCommand (goTrimSpace (String.mk seg)) }

/-- The stage splitter restated as a fold of `pipeScanStep` followed by
trimming and tokenizing every segment. -/
def pipeSplitAmended (command : String) : List Command :=
  (pipeScanSegs (command.data.foldl pipeScanStep ⟨[], [], false, false, false⟩)).map mkStage

/-- Parallel scan of `validateArgumentAux` that only looks for chaining
and substitution characters: it is `true` iff the token contains an
unquoted `;`, `&`, backtick, or `$` immediately followed by `(`,
under the argument scanner's quote and escape tracking. -/
def argScanBad : List Char → Bool → Bool → Bool → Bool
  | [], _, _, _ => false
  | c :: cs, inS, inD, escaped =>
      if escaped then argScanBad cs inS inD false
      else if c = '\\' then argScanBad cs inS inD true
      else if c = '\'' then argScanBad cs (if inD then inS else !inS) inD false
      else if c = '"' then argScanBad cs inS (if inS then inD else !inD) false
      else if c = ';' || c = '&' then
        if !inS && !inD then true else argScanBad cs inS inD false
      else if c = '`' then
        if !inS && !inD then true else argScanBad cs inS inD false
      else if c = '$' then
        if !inS && !inD && cs.head? = some '(' then true else argScanBad cs inS inD false
      else argScanBad cs inS inD false

/-- A token contains an unquoted chaining or substitution construct. -/
def hasUnquotedChainingOrSubstitution (arg : String) : Bool :=
  argScanBad arg.data false false false

/-- Parallel scan of the pipe splitter's state machine detecting two
adjacent pipe characters that are both stage separators (both unquoted).
The last flag records that the previous character was a separator pipe. -/
def doublePipeScan : List Char → Bool → Bool → Bool → Bool → Bool
  | [], _, _, _, _ => false
  | c :: cs, inS, inD, escaped, prevPipe =>
      if escaped then doublePipeScan cs inS inD false false
      else if c = '\\' then doublePipeScan cs inS inD true false
      else if c = '\'' then doublePipeScan cs (!inS) inD false false
      else if c = '"' then doublePipeScan cs inS (if inS then inD else !inD) false false
      else if c = '|' then
        if !inS && !inD then
          if prevPipe then true else doublePipeScan cs inS inD false true
        else doublePipeScan cs inS inD false false
      else doublePipeScan cs inS inD false false

/-- The command contains two consecutive unquoted pipe characters. -/
def hasConsecutiveUnquotedPipes (command : String) : Bool :=
  doublePipeScan command.data false false false false

/-- Membership of a validation error in the spec's seven-kind taxonomy
(EmptyCommand, CommandChaining, CommandSubstitution, Redirection,
UnmatchedQuote, CommandNotAllowed, SubCommandNotAllowed); written from
the spec's words for comparison with the code's errors. -/
def isAmongSpecSevenKinds : ValidationError → Bool
  | .emptyCommand => true
  | .commandChaining => true
  | .commandSubstitution => true
  | .redirection => true
  | .unmatchedQuote => true
  | .commandNotAllowed _ => true
  | .subCommandNotAllowed _ => true
  | .invalidMainCommand => false

/-! ### The memoizing executer (`TerminalExecuter.Run`) -/

/-- What one shell invocation yields: the raw combined output, the error
of `cmd.CombinedOutput` (`none` on success), and whether the governing
context's deadline had elapsed (`ctx.Err() == context.DeadlineExceeded`). -/
structure ShellOutcome where
  output : String
  err : Option String
  deadlineExceeded : Bool
deriving DecidableEq, Repr

/-- `type ExecuterResponse struct { Result string; Error error }`. -/
structure ExecuterResponse where
  result : String
  error : Option String
deriving DecidableEq, Repr

/-- `TerminalExecuter.Run`: cache lookup by the exact literal command
string; on a miss invoke the shell, trim the combined output, classify a
failure as timeout or generic execution failure, and cache the trimmed
output only when there was no error.  The shell is an oracle
`shell : String → ShellOutcome` standing for one use of the subprocess
(so two calls under different contexts are modelled by two oracles); the
returned list records the commands actually sent to the shell by this
call (`[]` on a cache hit). -/
def Run (shell : String → ShellOutcome) (tx : TerminalExecuter) (command : String) :
    ExecuterResponse × TerminalExecuter × List String :=
  match lookupCache tx.executedCommands command with
  | some output => ({ result := output, error := none }, tx, [])
  | none =>
      let o := shell command
      let resp := goTrimSpace o.output
      match o.err with
      | none =>
          ({ result := resp, error := none },
           { tx with executedCommands := tx.executedCommands ++ [(command, resp)] }, [command])
      | some e =>
          if o.deadlineExceeded then
            ({ result := resp, error := some "command execution timed out: context deadline exceeded" },
             tx, [command])
          else
            ({ result := resp, error := some ("command execution failed: " ++ e) },
             tx, [command])

/-! ### The structured-response protocol (`Model.GuidedAsk`) -/

/-- The corrective prompt built by `GuidedAsk` after a parse failure. -/
def correctivePrompt (parseErr : String) (prompt : String) : String :=
  "Error: Failed to parse your response. Answer only with the requested JSON format. The error was: "
    ++ parseErr ++ "\n\nOriginal prompt: " ++ prompt
    ++ "\nDo not apologize or mention the formatting error in your response"

/-- The error returned after the last attempt's parse failure:
`fmt.Errorf("failed to parse model response after %d attempts: %w", …)`. -/
def schemaErrorMsg (attempts : Nat) (parseErr : String) : String :=
  "failed to parse model response after " ++ toString attempts ++ " attempts: " ++ parseErr

/-- Recursive core of `GuidedAsk`.  `ask` is the transport oracle
(indexed by the 1-based attempt number and given the current prompt) and
`parse` stands for `json.Unmarshal` into the caller's schema.  The fuel
equals `maxAttempts - attempt + 1`; exhausting it without entering the
loop body reproduces the post-loop
`"failed to get a valid response after %d attempts"` return. -/
def guidedAskAux {α : Type} (ask : Nat → String → Except String String)
    (parse : String → Except String α) (maxAttempts : Nat) :
    Nat → Nat → String → Except String α
  | 0, _, _ =>
      .error ("failed to get a valid response after " ++ toString maxAttempts ++ " attempts")
  | fuel + 1, attempt, prompt =>
      match ask attempt prompt with
      | .error e => .error ("failed to interact with the model: " ++ e)
      | .ok reply =>
          match parse reply with
          | .ok v => .ok v
          | .error e =>
              if attempt = maxAttempts then .error (schemaErrorMsg maxAttempts e)
              else guidedAskAux ask parse maxAttempts fuel (attempt + 1) (correctivePrompt e prompt)

/-- `Model.GuidedAsk` with the transport and the JSON schema abstracted
as oracles. -/
def guidedAsk {α : Type} (ask : Nat → String → Except String String)
    (parse : String → Except String α) (maxAttempts : Nat) (prompt : String) :
    Except String α :=
  guidedAskAux ask parse maxAttempts maxAttempts 1 prompt

/-! ### The session loop (`Agent.StartSession` / `Agent.handleCommand`) -/

/-- `AgentResponse` of the Kubernetes debugging agent. -/
structure AgentResponse where
  finalAnswer : String
  runCommand : String
  needMoreData : Bool
  reason : String
deriving DecidableEq, Repr

/-- `numberOfQueries = 7`. -/
def numberOfQueries : Nat := 7

/-- `Agent.handleCommand`: cached commands short-circuit to the stored
output; otherwise the approval collaborator `validate` runs
(`(isReadOnly, reason, err)`); a validation error or a rejection becomes
the returned prompt without running anything; an approved command is run,
a failure becomes a `"Command failed: …"` prompt (not cached), a success
(with the `"No output"` sentinel for empty output) is cached and
returned.  The result is the next prompt, the updated cache, and the
commands passed to the executer's `Run` during this call. -/
def handleCommand (validate : String → Bool × String × Option String)
    (runE : String → String × Option String)
    (cache : List (String × String)) (command : String) :
    String × List (String × String) × List String :=
  match lookupCache cache command with
  | some output => (output, cache, [])
  | none =>
      let v := validate command
      match v.2.2 with
      | some e => ("Failed to validate command: " ++ e, cache, [])
      | none =>
          if !v.1 then (v.2.1, cache, [])
          else
            let r := runE command
            match r.2 with
            | some e => ("Command failed: " ++ e, cache, [command])
            | none =>
                let out := if r.1 = "" then "No output" else r.1
                (out, cache ++ [(command, out)], [command])

/-- Observable outcome of a session: the returned `(answer, error)` pair
plus the instrumentation traces — the prompts actually sent to the model
and the commands actually passed to the executer's `Run`. -/
structure SessionResult where
  answer : String
  error : Option String
  prompts : List String
  ran : List String
deriving DecidableEq, Repr

/-- The `for queryCount := 0; modelResp.NeedMoreData && queryCount < maxQueries`
loop of `Agent.StartSession`, with `fuel = maxQueries - queryCount`.
`interact` is `interactWithModel` (indexed by the number of model calls
already made and given the prompt); `ctxErr i` is `ctx.Err()` as observed
by the `select` before the `i`-th model call (`none` while the context is
alive).  Exiting the loop with `NeedMoreData` still set yields the fixed
incomplete-analysis message; otherwise the final answer is returned. -/
def sessionLoop (interact : Nat → String → Except String AgentResponse)
    (validate : String → Bool × String × Option String)
    (runE : String → String × Option String)
    (ctxErr : Nat → Option String) :
    Nat → Nat → String → AgentResponse → List (String × String) → SessionResult
  | 0, _, _, modelResp, _ =>
      if modelResp.needMoreData then
        { answer := "Analysis incomplete. Reached maximum number of queries."
          error := none, prompts := [], ran := [] }
      else
        { answer := modelResp.finalAnswer, error := none, prompts := [], ran := [] }
  | fuel + 1, callIdx, prompt, modelResp, cache =>
      if modelResp.needMoreData then
        match ctxErr callIdx with
        | some e => { answer := "", error := some e, prompts := [], ran := [] }
        | none =>
            match interact callIdx prompt with
            | .error e => { answer := "", error := some e, prompts := [prompt], ran := [] }
            | .ok resp =>
                if resp.runCommand ≠ "" ∧ resp.needMoreData = true then
                  let h := handleCommand validate runE cache resp.runCommand
                  let rest := sessionLoop interact validate runE ctxErr fuel (callIdx + 1) h.1 resp h.2.1
                  { answer := rest.answer, error := rest.error
                    prompts := prompt :: rest.prompts, ran := h.2.2 ++ rest.ran }
                else if resp.needMoreData = true then
                  let rest := sessionLoop interact validate runE ctxErr fuel (callIdx + 1)
                    "Please suggest a command to run or end the session." resp cache
                  { answer := rest.answer, error := rest.error
                    prompts := prompt :: rest.prompts, ran := rest.ran }
                else
                  let rest := sessionLoop interact validate runE ctxErr fuel (callIdx + 1) prompt resp cache
                  { answer := rest.answer, error := rest.error
                    prompts := prompt :: rest.prompts, ran := rest.ran }
      else
        { answer := modelResp.finalAnswer, error := none, prompts := [], ran := [] }

/-- `Agent.StartSession`: initial response `{NeedMoreData: true}`, the
user's query as the first prompt, an empty per-session cache, and the
default budget of `numberOfQueries = 7` model calls. -/
def startSession (interact : Nat → String → Except String AgentResponse)
    (validate : String → Bool × String × Option String)
    (runE : String → String × Option String)
    (ctxErr : Nat → Option String) (q : String) : SessionResult :=
  sessionLoop interact validate runE ctxErr numberOfQueries 0 q
    { finalAnswer := "", runCommand := "", needMoreData := true, reason := "" } []

/-! ### Concrete collaborator stubs used to instantiate the theorems -/

/-- A shell stub whose every invocation fails with `exit status 1`. -/
def shellStubFail : String → ShellOutcome :=
  fun _ => { output := "", err := some "exit status 1", deadlineExceeded := false }

/-- A shell stub whose every invocation succeeds. -/
def shellStubOk : String → ShellOutcome :=
  fun _ => { output := "pod-a   Running\n", err := none, deadlineExceeded := false }

/-- A model stub that always needs more data and proposes a command. -/
def interactStubCmd : Nat → String → Except String AgentResponse :=
  fun _ _ => .ok { finalAnswer := "", runCommand := "kubectl get pods"
                   needMoreData := true, reason := "inspect the pods" }

/-- A model stub that proposes a dangerous command on the first call. -/
def interactStubReject : Nat → String → Except String AgentResponse :=
  fun i _ =>
    if i = 0 then
      .ok { finalAnswer := "", runCommand := "rm -rf /", needMoreData := true, reason := "oops" }
    else
      .ok { finalAnswer := "all good", runCommand := "", needMoreData := false, reason := "" }

/-- An approval stub that rejects every command with a fixed reason. -/
def approveRejectStub : String → Bool × String × Option String :=
  fun _ => (false, "command rejected by user", none)

/-- An approval stub that approves every command. -/
def approveAllowStub : String → Bool × String × Option String :=
  fun _ => (true, "", none)

/-- An executer stub whose every run succeeds with a fixed output. -/
def runStubOk : String → String × Option String :=
  fun _ => ("NAME READY STATUS", none)

/-- A context that never expires. -/
def ctxAlive : Nat → Option String :=
  fun _ => none

/-- A parse stub standing for `json.Unmarshal`: only the reply `VALID`
parses, to the value `7`. -/
def parseStub : String → Except String Nat :=
  fun s => if s = "VALID" then .ok 7 else .error "invalid character"

/-- A transport stub replying malformed payloads on attempts 1 and 2 and
a valid payload on attempt 3. -/
def askStubTwoBad : Nat → String → Except String String :=
  fun i _ => if i ≤ 2 then .ok "oops" else .ok "VALID"

/-- A transport stub whose every reply is malformed. -/
def askStubAllBad : Nat → String → Except String String :=
  fun _ _ => .ok "oops"

/-! ## Helper lemmas -/

theorem lookupCache_append_self (l : List (String × String)) (k v : String)
    (h : lookupCache l k = none) : lookupCache (l ++ [(k, v)]) k = some v := by
  induction l with
  | nil => simp [lookupCache, List.find?]
  | cons a l ih =>
      by_cases hk : a.1 = k
      · simp [lookupCache, List.find?, hk] at h
      · simp only [lookupCache, List.cons_append, List.find?] at h ⊢
        rw [decide_eq_false hk] at h ⊢
        exact ih h

/-! ## C1 — idempotence of execution -/

/-- C1 counterexample: the claim quantifies over every command string,
but a command whose first execution fails is not cached, so running the
same literal string twice invokes the shell twice, not once. -/
theorem c1_counterexample :
    (Run shellStubFail { executedCommands := [], executerType := KubernetesExecuterType }
        "kubectl get pods").2.2 = ["kubectl get pods"] ∧
    (Run shellStubFail
        (Run shellStubFail { executedCommands := [], executerType := KubernetesExecuterType }
          "kubectl get pods").2.1 "kubectl get pods").2.2 = ["kubectl get pods"] ∧
    ((Run shellStubFail { executedCommands := [], executerType := KubernetesExecuterType }
        "kubectl get pods").2.2 ++
      (Run shellStubFail
        (Run shellStubFail { executedCommands := [], executerType := KubernetesExecuterType }
          "kubectl get pods").2.1 "kubectl get pods").2.2).length ≠ 1 := by
  decide

/-- C1 (amended): for every command string not yet cached whose first
execution completes without error, running the same literal string again
hits the cache: the shell is invoked exactly once across both calls, and
the second call — under any context, modelled by an arbitrary second
shell oracle — returns the identical stored result, changes no state and
never touches the shell. -/
theorem c1_cache_idempotence (shell1 shell2 : String → ShellOutcome)
    (tx : TerminalExecuter) (cmd : String)
    (hmiss : lookupCache tx.executedCommands cmd = none)
    (hok : (Run shell1 tx cmd).1.error = none) :
    (Run shell1 tx cmd).2.2 = [cmd] ∧
    (Run shell2 (Run shell1 tx cmd).2.1 cmd).1 = (Run shell1 tx cmd).1 ∧
    (Run shell2 (Run shell1 tx cmd).2.1 cmd).2.2 = [] ∧
    (Run shell2 (Run shell1 tx cmd).2.1 cmd).2.1 = (Run shell1 tx cmd).2.1 := by
  rcases herr : (shell1 cmd).err with _ | e
  · have hhit : lookupCache (tx.executedCommands ++ [(cmd, goTrimSpace (shell1 cmd).output)]) cmd
        = some (goTrimSpace (shell1 cmd).output) :=
      lookupCache_append_self _ _ _ hmiss
    simp [Run, hmiss, herr, hhit]
  · exfalso
    by_cases hd : (shell1 cmd).deadlineExceeded
    · simp [Run, hmiss, herr, hd] at hok
    · simp [Run, hmiss, herr, hd] at hok

/-- C1 witness. -/
theorem c1_cache_idempotence_witness :
    (Run shellStubOk { executedCommands := [], executerType := KubernetesExecuterType }
        "kubectl get pods").2.2 = ["kubectl get pods"] ∧
    (Run shellStubFail
        (Run shellStubOk { executedCommands := [], executerType := KubernetesExecuterType }
          "kubectl get pods").2.1 "kubectl get pods").1 =
      (Run shellStubOk { executedCommands := [], executerType := KubernetesExecuterType }
        "kubectl get pods").1 ∧
    (Run shellStubFail
        (Run shellStubOk { executedCommands := [], executerType := KubernetesExecuterType }
          "kubectl get pods").2.1 "kubectl get pods").2.2 = [] ∧
    (Run shellStubFail
        (Run shellStubOk { executedCommands := [], executerType := KubernetesExecuterType }
          "kubectl get pods").2.1 "kubectl get pods").2.1 =
      (Run shellStubOk { executedCommands := [], executerType := KubernetesExecuterType }
        "kubectl get pods").2.1 :=
  c1_cache_idempotence shellStubOk shellStubFail _ "kubectl get pods" (by decide) (by decide)

/-! ## C8 — error atomicity of the executer cache -/

/-- C8: whenever `Run` returns a result with a non-`nil` error, the
executed-command cache is left unchanged, and resubmitting the same
command string later in the session executes it again (under any
context). -/
theorem c8_error_atomicity (shell shell2 : String → ShellOutcome)
    (tx : TerminalExecuter) (cmd : String)
    (herr : (Run shell tx cmd).1.error ≠ none) :
    (Run shell tx cmd).2.1.executedCommands = tx.executedCommands ∧
    (Run shell2 (Run shell tx cmd).2.1 cmd).2.2 = [cmd] := by
  rcases hmiss : lookupCache tx.executedCommands cmd with _ | out
  · rcases he : (shell cmd).err with _ | e
    · simp [Run, hmiss, he] at herr
    · have hstate : (Run shell tx cmd).2.1 = tx := by
        by_cases hd : (shell cmd).deadlineExceeded <;> simp [Run, hmiss, he, hd]
      refine ⟨by rw [hstate], ?_⟩
      rw [hstate]
      rcases he2 : (shell2 cmd).err with _ | e2
      · simp [Run, hmiss, he2]
      · by_cases hd2 : (shell2 cmd).deadlineExceeded <;> simp [Run, hmiss, he2, hd2]
  · simp [Run, hmiss] at herr

/-- C8 witness. -/
theorem c8_error_atomicity_witness :
    (Run shellStubFail { executedCommands := [], executerType := KubernetesExecuterType }
        "kubectl get pods").2.1.executedCommands =
      ({ executedCommands := [], executerType := KubernetesExecuterType } :
        TerminalExecuter).executedCommands ∧
    (Run shellStubFail
        (Run shellStubFail { executedCommands := [], executerType := KubernetesExecuterType }
          "kubectl get pods").2.1 "kubectl get pods").2.2 = ["kubectl get pods"] :=
  c8_error_atomicity shellStubFail shellStubFail _ "kubectl get pods" (by decide)

/-! ## C3 — statefulness of validation -/

/-- C3 counterexample: two executer states with the same policy but
different execution histories give different verdicts for the same
command — `Validate` accepts any command found in the executed-command
cache without looking at the policy at all. -/
theorem c3_counterexample :
    ({ executedCommands := [], executerType := KubernetesExecuterType } :
        TerminalExecuter).executerType =
      ({ executedCommands := [("rm", "")], executerType := KubernetesExecuterType } :
        TerminalExecuter).executerType ∧
    Validate { executedCommands := [], executerType := KubernetesExecuterType } "rm" =
      some .invalidMainCommand ∧
    Validate { executedCommands := [("rm", "")], executerType := KubernetesExecuterType } "rm" =
      none := by
  decide

/-- C3 (amended): `Validate` first accepts any command present in the
executed-command cache; apart from that membership test the verdict is a
pure function of the command text and the policy — two states with the
same policy, in neither of which the command is cached, give the same
verdict — and validation decisions are never stored. -/
theorem c3_validate_pure_on_miss (t : TerminalExecuterType)
    (cache1 cache2 : List (String × String)) (cmd : String)
    (h1 : lookupCache cache1 cmd = none) (h2 : lookupCache cache2 cmd = none) :
    Validate { executedCommands := cache1, executerType := t } cmd =
      Validate { executedCommands := cache2, executerType := t } cmd := by
  simp [Validate, h1, h2]

/-- C3 witness. -/
theorem c3_validate_pure_on_miss_witness :
    Validate { executedCommands := [], executerType := KubernetesExecuterType } "rm" =
      Validate { executedCommands := [("kubectl get pods", "NAME")],
                 executerType := KubernetesExecuterType } "rm" :=
  c3_validate_pure_on_miss KubernetesExecuterType _ _ "rm" (by decide) (by decide)

/-! ## C9 — the rejection taxonomy -/

/-- C9 counterexample: a configured subcommand allow-list with a
one-token first stage is rejected as `invalidMainCommand`
(`ErrInvalidMainCommand`, "main command is not valid"), an eighth kind
that is not among the spec's seven. -/
theorem c9_counterexample :
    Validate { executedCommands := [], executerType := KubernetesExecuterType } "kubectl" =
      some .invalidMainCommand ∧
    isAmongSpecSevenKinds .invalidMainCommand = false := by
  decide

/-- C9 (amended): every rejection returned by validation is one of
exactly eight kinds — the spec's seven plus `invalidMainCommand` — and
when a subcommand allow-list is configured a one-token first stage is
rejected precisely as `invalidMainCommand`. -/
theorem c9_rejection_taxonomy :
    (∀ (tx : TerminalExecuter) (cmd : String) (e : ValidationError),
      Validate tx cmd = some e →
        (e = .emptyCommand ∨ e = .commandChaining ∨ e = .commandSubstitution ∨
         e = .redirection ∨ e = .unmatchedQuote ∨ e = .invalidMainCommand ∨
         (∃ s, e = .commandNotAllowed s) ∨ (∃ s, e = .subCommandNotAllowed s))) ∧
    (∀ (t : TerminalExecuterType) (p0 : String), 0 < t.allowedSubCommands.length →
      validateSingleCommand t { parts := [p0] } true = some .invalidMainCommand) := by
  constructor
  · intro tx cmd e _
    cases e <;> simp
  · intro t p0 h
    simp only [validateSingleCommand]
    rw [if_pos h]
    rw [if_pos (show ([p0] : List String).length < 2 by simp)]
    simp

/-- C9 witness. -/
theorem c9_rejection_taxonomy_witness :
    (Validate { executedCommands := [], executerType := KubernetesExecuterType } "kubectl" =
        some .invalidMainCommand →
      ((.invalidMainCommand : ValidationError) = .emptyCommand ∨
       (.invalidMainCommand : ValidationError) = .commandChaining ∨
       (.invalidMainCommand : ValidationError) = .commandSubstitution ∨
       (.invalidMainCommand : ValidationError) = .redirection ∨
       (.invalidMainCommand : ValidationError) = .unmatchedQuote ∨
       (.invalidMainCommand : ValidationError) = .invalidMainCommand ∨
       (∃ s, (.invalidMainCommand : ValidationError) = .commandNotAllowed s) ∨
       (∃ s, (.invalidMainCommand : ValidationError) = .subCommandNotAllowed s))) ∧
    validateSingleCommand KubernetesExecuterType { parts := ["kubectl"] } true =
      some .invalidMainCommand :=
  ⟨fun h => c9_rejection_taxonomy.1 _ _ _ h,
   c9_rejection_taxonomy.2 KubernetesExecuterType "kubectl" (by decide)⟩

/-! ## C2 — unquoted chaining and substitution characters -/

set_option maxHeartbeats 1000000 in
theorem argScanBad_rejects :
    ∀ (cs : List Char) (inS inD esc : Bool),
      argScanBad cs inS inD esc = true → validateArgumentAux cs inS inD esc ≠ none := by
  intro cs
  induction cs with
  | nil => intro inS inD esc h; simp [argScanBad] at h
  | cons c cs ih =>
      intro inS inD esc h
      simp only [argScanBad] at h
      simp only [validateArgumentAux]
      split_ifs at h ⊢ <;> first
        | exact ih _ _ _ h
        | simp

theorem validateCommandArguments_rejects :
    ∀ (args : List String),
      (∃ a ∈ args, hasUnquotedChainingOrSubstitution a = true) →
      validateCommandArguments args ≠ none := by
  intro args
  induction args with
  | nil => rintro ⟨a, ha, _⟩; simp at ha
  | cons a as ih =>
      rintro ⟨b, hb, hbad⟩
      simp only [validateCommandArguments]
      rcases hv : validateArgument a with _ | e
      · rcases List.mem_cons.mp hb with rfl | hb2
        · exact absurd hv (argScanBad_rejects _ _ _ _ hbad)
        · exact ih ⟨b, hb2, hbad⟩
      · simp

theorem validateSingleCommand_rejects (t : TerminalExecuterType) (stage : Command)
    (isMain : Bool) (h : ∃ a ∈ stage.parts, hasUnquotedChainingOrSubstitution a = true) :
    validateSingleCommand t stage isMain ≠ none := by
  rcases stage with ⟨parts⟩
  rcases parts with _ | ⟨p0, rest⟩
  · simp [validateSingleCommand]
  · rcases rest with _ | ⟨p1, rest2⟩
    · have hargs : validateCommandArguments [p0] ≠ none :=
        validateCommandArguments_rejects _ (by simpa using h)
      simp only [validateSingleCommand]
      split_ifs <;> first | exact hargs | simp
    · have hargs : validateCommandArguments (p0 :: p1 :: rest2) ≠ none :=
        validateCommandArguments_rejects _ (by simpa using h)
      simp only [validateSingleCommand]
      split_ifs <;> first | exact hargs | simp

theorem validateStages_rejects :
    ∀ (t : TerminalExecuterType) (stages : List Command) (isFirst : Bool),
      (∃ st ∈ stages, ∃ a ∈ st.parts, hasUnquotedChainingOrSubstitution a = true) →
      validateStages t stages isFirst ≠ none := by
  intro t stages
  induction stages with
  | nil => rintro _ ⟨st, hst, _⟩; simp at hst
  | cons s ss ih =>
      rintro isFirst ⟨st, hst, ha⟩
      simp only [validateStages]
      rcases hv : validateSingleCommand t s isFirst with _ | e
      · rcases List.mem_cons.mp hst with rfl | hst2
        · exact absurd hv (validateSingleCommand_rejects _ _ _ ha)
        · exact ih false ⟨st, hst2, ha⟩
      · simp

/-- C2 counterexample: `rm ;` contains an unquoted `;`, but since its
first token `rm` is not in the primary allow-list the verdict is
`commandNotAllowed "rm"`, not the claimed `commandChaining`. -/
theorem c2_counterexample :
    splitCommandsByPipe "rm ;" = [{ parts := ["rm", ";"] }] ∧
    hasUnquotedChainingOrSubstitution ";" = true ∧
    Validate { executedCommands := [], executerType := KubernetesExecuterType } "rm ;" =
      some (.commandNotAllowed "rm") ∧
    Validate { executedCommands := [], executerType := KubernetesExecuterType } "rm ;" ≠
      some .commandChaining := by
  decide

/-- C2 (amended): every command one of whose stage tokens contains an
unquoted `;`, `&`, backtick, or `$(` is rejected by `Validate`, provided
the command is not already in the executed-command cache; the rejection
carries the corresponding chaining/substitution kind only when that
violation is the first one encountered and the stage allow-list checks
pass — otherwise another kind (such as `commandNotAllowed`) is
reported. -/
theorem c2_unquoted_specials_rejected (tx : TerminalExecuter) (cmd : String)
    (hmiss : lookupCache tx.executedCommands cmd = none)
    (hbad : ∃ st ∈ splitCommandsByPipe cmd, ∃ a ∈ st.parts,
      hasUnquotedChainingOrSubstitution a = true) :
    Validate tx cmd ≠ none := by
  by_cases hc : cmd = ""
  · simp [Validate, hc]
  · simp only [Validate, if_neg hc, hmiss, Option.isSome_none, Bool.false_eq_true, if_false]
    exact validateStages_rejects _ _ _ hbad

/-- C2 witness. -/
theorem c2_unquoted_specials_rejected_witness :
    Validate { executedCommands := [], executerType := KubernetesExecuterType }
      "kubectl get pods ;" ≠ none :=
  c2_unquoted_specials_rejected _ "kubectl get pods ;" (by decide) (by decide)

/-! ## C4 — the quote discipline of the stage splitter -/

theorem foldl_pipeScanStep_shift (cs : List Char) :
    ∀ (X : List (List Char)) (cur : List Char) (s d e : Bool),
      List.foldl pipeScanStep ⟨X, cur, s, d, e⟩ cs =
        { List.foldl pipeScanStep ⟨[], cur, s, d, e⟩ cs with
          segs := X ++ (List.foldl pipeScanStep ⟨[], cur, s, d, e⟩ cs).segs } := by
  induction cs with
  | nil => intro X cur s d e; simp
  | cons c cs ih =>
      intro X cur s d e
      simp only [List.foldl]
      cases e
      · dsimp only [pipeScanStep]
        split_ifs <;> first
          | exact ih _ _ _ _ _
          | (rw [ih (X ++ [cur]) [] s d false]
             simp only [List.nil_append]
             rw [ih [cur] [] s d false]
             simp [List.append_assoc])
      · dsimp only [pipeScanStep]
        exact ih _ _ _ _ _

theorem splitCommandsByPipeAux_eq (cs : List Char) :
    ∀ (cur : List Char) (commands : List Command) (s d e : Bool),
      splitCommandsByPipeAux cs cur commands s d e =
        commands ++ (pipeScanSegs (List.foldl pipeScanStep ⟨[], cur, s, d, e⟩ cs)).map mkStage := by
  induction cs with
  | nil =>
      intro cur commands s d e
      by_cases hcur : cur = [] <;>
        simp [splitCommandsByPipeAux, pipeScanSegs, mkStage, hcur]
  | cons c cs ih =>
      intro cur commands s d e
      simp only [List.foldl]
      cases e
      · dsimp only [splitCommandsByPipeAux, pipeScanStep]
        split_ifs <;> first
          | exact ih _ _ _ _ _
          | (rw [ih]
             simp only [List.nil_append]
             rw [foldl_pipeScanStep_shift cs [cur] [] s d false]
             simp [pipeScanSegs, mkStage, List.append_assoc])
      · dsimp only [splitCommandsByPipeAux, pipeScanStep]
        exact ih _ _ _ _ _

theorem splitCommandsByPipe_eq_pipeSplitAmended (s : String) :
    splitCommandsByPipe s = pipeSplitAmended s := by
  unfold splitCommandsByPipe pipeSplitAmended
  simpa using splitCommandsByPipeAux_eq s.data [] [] false false false

/-- C4 counterexample: in `a"'"|b` the `'` sits inside double quotes, so
under the claim's non-nesting discipline the second `"` closes the double
quote and the `|` splits (two stages, as `pipeSplitClaim` computes); the
code's scanner instead lets the `'` open a single quote inside the double
quote, so the `|` is treated as quoted and only one stage is produced. -/
theorem c4_counterexample :
    splitCommandsByPipe "a\"'\"|b" = [{ parts := ["a\"'\"|b"] }] ∧
    pipeSplitClaim "a\"'\"|b" = [{ parts := ["a\"'\""] }, { parts := ["b"] }] ∧
    splitCommandsByPipe "a\"'\"|b" ≠ pipeSplitClaim "a\"'\"|b" := by
  decide

/-- C4 (amended): the stage splitter behaves exactly like the scanner
whose step rules are: an escaped character is passed through literally
without touching quote state; `'` always toggles single-quote state,
even while a double quote is open; `"` toggles double-quote state only
while no single quote is open; and `|` separates stages exactly when
neither quote is open and the character is not escaped. -/
theorem c4_scanner_quote_discipline :
    ∀ (s : String), splitCommandsByPipe s = pipeSplitAmended s :=
  fun s => splitCommandsByPipe_eq_pipeSplitAmended s

/-! ## C10 — consecutive pipes and a trailing pipe -/

theorem doublePipe_empty_stage :
    ∀ (cs : List Char) (s d e prev : Bool) (cur : List Char) (commands : List Command),
      (prev = true → cur = []) → doublePipeScan cs s d e prev = true →
      ({ parts := [] } : Command) ∈ splitCommandsByPipeAux cs cur commands s d e := by
  intro cs
  induction cs with
  | nil => intro s d e prev cur commands _ h; simp [doublePipeScan] at h
  | cons c cs ih =>
      intro s d e prev cur commands hinv h
      cases e
      · dsimp only [doublePipeScan] at h
        dsimp only [splitCommandsByPipeAux]
        split_ifs at h ⊢ <;> first
          | exact ih _ _ _ _ _ _ (fun _ => rfl) h
          | exact ih _ _ _ _ _ _ (fun hh => absurd hh (by simp)) h
          | (have hcur : cur = [] := hinv ‹prev = true›
             subst hcur
             rw [splitCommandsByPipeAux_eq]
             have hempty : splitCommand (goTrimSpace (String.mk [])) = [] := by decide
             simp [hempty])
      · dsimp only [doublePipeScan] at h
        dsimp only [splitCommandsByPipeAux]
        exact ih _ _ _ _ _ _ (fun hh => by simp at hh) h

theorem validateStages_empty_stage (t : TerminalExecuterType) :
    ∀ (stages : List Command) (isFirst : Bool),
      ({ parts := [] } : Command) ∈ stages → validateStages t stages isFirst ≠ none := by
  intro stages
  induction stages with
  | nil => intro isFirst h; simp at h
  | cons st ss ih =>
      intro isFirst h
      simp only [validateStages]
      rcases hv : validateSingleCommand t st isFirst with _ | e
      · rcases List.mem_cons.mp h with rfl | h2
        · simp [validateSingleCommand] at hv
        · exact ih false h2
      · simp

theorem splitCommandsByPipe_trailing_pipe (s : String)
    (h1 : (s.data.foldl pipeScanStep ⟨[], [], false, false, false⟩).single = false)
    (h2 : (s.data.foldl pipeScanStep ⟨[], [], false, false, false⟩).double = false)
    (h3 : (s.data.foldl pipeScanStep ⟨[], [], false, false, false⟩).escaped = false)
    (h4 : (s.data.foldl pipeScanStep ⟨[], [], false, false, false⟩).cur ≠ []) :
    splitCommandsByPipe (s ++ "|") = splitCommandsByPipe s := by
  rw [splitCommandsByPipe_eq_pipeSplitAmended, splitCommandsByPipe_eq_pipeSplitAmended]
  unfold pipeSplitAmended
  have hdata : (s ++ "|").data = s.data ++ ['|'] := rfl
  rw [hdata, List.foldl_append]
  simp only [List.foldl]
  rw [show pipeScanStep (s.data.foldl pipeScanStep ⟨[], [], false, false, false⟩) '|' =
      { s.data.foldl pipeScanStep ⟨[], [], false, false, false⟩ with
        segs := (s.data.foldl pipeScanStep ⟨[], [], false, false, false⟩).segs ++
          [(s.data.foldl pipeScanStep ⟨[], [], false, false, false⟩).cur]
        cur := [] } from by simp [pipeScanStep, h1, h2, h3]]
  simp [pipeScanSegs, h4]

theorem validate_trailing_pipe (tx : TerminalExecuter) (s : String)
    (h1 : (s.data.foldl pipeScanStep ⟨[], [], false, false, false⟩).single = false)
    (h2 : (s.data.foldl pipeScanStep ⟨[], [], false, false, false⟩).double = false)
    (h3 : (s.data.foldl pipeScanStep ⟨[], [], false, false, false⟩).escaped = false)
    (h4 : (s.data.foldl pipeScanStep ⟨[], [], false, false, false⟩).cur ≠ [])
    (hm1 : lookupCache tx.executedCommands (s ++ "|") = none)
    (hm2 : lookupCache tx.executedCommands s = none) :
    Validate tx (s ++ "|") = Validate tx s := by
  have hs : s ≠ "" := by
    intro hemp
    subst hemp
    exact h4 rfl
  have hsp : s ++ "|" ≠ "" := by
    intro hemp
    have : (s ++ "|").data = [] := by rw [hemp]
    rw [show (s ++ "|").data = s.data ++ ['|'] from rfl] at this
    simp at this
  simp only [Validate, if_neg hsp, if_neg hs, hm1, hm2, Option.isSome_none,
    Bool.false_eq_true, if_false]
  rw [splitCommandsByPipe_trailing_pipe s h1 h2 h3 h4]

/-- C10 counterexample: `a || b` contains two consecutive unquoted
pipes, yet when that literal string is already a key of the
executed-command cache, `Validate` accepts it outright instead of
rejecting it. -/
theorem c10_counterexample :
    hasConsecutiveUnquotedPipes "a || b" = true ∧
    Validate { executedCommands := [("a || b", "cached output")],
               executerType := KubernetesExecuterType } "a || b" = none := by
  decide

/-- C10 (amended): provided the command is not already in the
executed-command cache, every command containing two consecutive
unquoted pipes produces a stage with zero tokens and is rejected (a
zero-token stage is itself rejected as `emptyCommand`); whereas a single
unquoted `|` at the very end of a command — one whose scan ends outside
quotes, unescaped, with a non-empty last segment — produces no
additional stage and leaves the verdict unchanged (given cache misses
for both strings). -/
theorem c10_double_pipe_rejected :
    (∀ (tx : TerminalExecuter) (cmd : String),
      hasConsecutiveUnquotedPipes cmd = true →
      lookupCache tx.executedCommands cmd = none →
      ({ parts := [] } : Command) ∈ splitCommandsByPipe cmd ∧ Validate tx cmd ≠ none) ∧
    (∀ (t : TerminalExecuterType) (b : Bool),
      validateSingleCommand t { parts := [] } b = some .emptyCommand) ∧
    (∀ (s : String) (tx : TerminalExecuter),
      (s.data.foldl pipeScanStep ⟨[], [], false, false, false⟩).single = false →
      (s.data.foldl pipeScanStep ⟨[], [], false, false, false⟩).double = false →
      (s.data.foldl pipeScanStep ⟨[], [], false, false, false⟩).escaped = false →
      (s.data.foldl pipeScanStep ⟨[], [], false, false, false⟩).cur ≠ [] →
      splitCommandsByPipe (s ++ "|") = splitCommandsByPipe s ∧
      (lookupCache tx.executedCommands (s ++ "|") = none →
       lookupCache tx.executedCommands s = none →
       Validate tx (s ++ "|") = Validate tx s)) := by
  refine ⟨?_, ?_, ?_⟩
  · intro tx cmd hpipes hmiss
    have hmem : ({ parts := [] } : Command) ∈ splitCommandsByPipe cmd :=
      doublePipe_empty_stage cmd.data false false false false [] []
        (fun hh => by simp at hh) hpipes
    refine ⟨hmem, ?_⟩
    have hc : cmd ≠ "" := by
      intro hemp
      subst hemp
      simp [hasConsecutiveUnquotedPipes, doublePipeScan] at hpipes
    simp only [Validate, if_neg hc, hmiss, Option.isSome_none, Bool.false_eq_true, if_false]
    exact validateStages_empty_stage _ _ _ hmem
  · intro t b
    simp [validateSingleCommand]
  · intro s tx h1 h2 h3 h4
    exact ⟨splitCommandsByPipe_trailing_pipe s h1 h2 h3 h4,
      fun hm1 hm2 => validate_trailing_pipe tx s h1 h2 h3 h4 hm1 hm2⟩

/-- C10 witness. -/
theorem c10_double_pipe_rejected_witness :
    (({ parts := [] } : Command) ∈ splitCommandsByPipe "a || b" ∧
      Validate { executedCommands := [], executerType := KubernetesExecuterType } "a || b" ≠
        none) ∧
    validateSingleCommand KubernetesExecuterType { parts := [] } true =
      some .emptyCommand ∧
    (splitCommandsByPipe ("kubectl get pods" ++ "|") = splitCommandsByPipe "kubectl get pods" ∧
      Validate { executedCommands := [], executerType := KubernetesExecuterType }
          ("kubectl get pods" ++ "|") =
        Validate { executedCommands := [], executerType := KubernetesExecuterType }
          "kubectl get pods") := by
  refine ⟨c10_double_pipe_rejected.1 _ "a || b" (by decide) (by decide),
    c10_double_pipe_rejected.2.1 KubernetesExecuterType true, ?_⟩
  have h := c10_double_pipe_rejected.2.2 "kubectl get pods"
    { executedCommands := [], executerType := KubernetesExecuterType }
    (by decide) (by decide) (by decide) (by decide)
  exact ⟨h.1, h.2 (by decide) (by decide)⟩

/-! ## C7 — the structured-response retry protocol -/

theorem guidedAskAux_all_fail {β : Type} (ask2 : Nat → String → Except String String)
    (parse2 : String → Except String β) (n : Nat)
    (hfail : ∀ i p, 1 ≤ i → i ≤ n → ∃ rr ee, ask2 i p = .ok rr ∧ parse2 rr = .error ee) :
    ∀ (fuel attempt : Nat) (p : String), attempt + fuel = n + 1 → 1 ≤ attempt → attempt ≤ n →
      ∃ e, guidedAskAux ask2 parse2 n fuel attempt p = .error (schemaErrorMsg n e) := by
  intro fuel
  induction fuel with
  | zero => intro attempt p hsum h1 hn; omega
  | succ fuel ih =>
      intro attempt p hsum h1 hn
      obtain ⟨rr, ee, hask, hparse⟩ := hfail attempt p h1 hn
      by_cases hlast : attempt = n
      · subst hlast
        exact ⟨ee, by simp [guidedAskAux, hask, hparse]⟩
      · have hstep := ih (attempt + 1) (correctivePrompt ee p) (by omega) (by omega) (by omega)
        obtain ⟨e, he⟩ := hstep
        exact ⟨e, by simp [guidedAskAux, hask, hparse, hlast, he]⟩

/-- C7: `guidedAsk` succeeds as soon as an attempt's reply parses — with
`maxAttempts = 3` and replies failing to parse on attempts 1 and 2 but
parsing on attempt 3 it returns the third reply's parsed value, the
corrective prompt embedding the parse error and the previous prompt at
each retry — and after `maxAttempts` consecutive parse failures it
returns the error naming the attempt count instead of any malformed
payload. -/
theorem c7_guidedAsk_retry {α β : Type} (ask : Nat → String → Except String String)
    (parse : String → Except String α) (prompt r1 r2 r3 e1 e2 : String) (v : α)
    (h1 : ask 1 prompt = .ok r1) (hp1 : parse r1 = .error e1)
    (h2 : ask 2 (correctivePrompt e1 prompt) = .ok r2) (hp2 : parse r2 = .error e2)
    (h3 : ask 3 (correctivePrompt e2 (correctivePrompt e1 prompt)) = .ok r3)
    (hp3 : parse r3 = .ok v) :
    guidedAsk ask parse 3 prompt = .ok v ∧
    ∀ (ask2 : Nat → String → Except String String) (parse2 : String → Except String β)
      (n : Nat) (p2 : String), 1 ≤ n →
      (∀ i p, 1 ≤ i → i ≤ n → ∃ rr ee, ask2 i p = .ok rr ∧ parse2 rr = .error ee) →
      ∃ e, guidedAsk ask2 parse2 n p2 = .error (schemaErrorMsg n e) := by
  constructor
  · simp [guidedAsk, guidedAskAux, h1, hp1, h2, hp2, h3, hp3]
  · intro ask2 parse2 n p2 hn hfail
    exact guidedAskAux_all_fail ask2 parse2 n hfail n 1 p2 (by omega) (by omega) hn

/-- C7 witness. -/
theorem c7_guidedAsk_retry_witness :
    guidedAsk askStubTwoBad parseStub 3 "diagnose the pod" = .ok 7 ∧
    ∃ e, guidedAsk askStubAllBad parseStub 3 "diagnose the pod" =
      .error (schemaErrorMsg 3 e) := by
  have h := c7_guidedAsk_retry (β := Nat) askStubTwoBad parseStub "diagnose the pod"
    "oops" "oops" "VALID" "invalid character" "invalid character" 7
    rfl rfl rfl rfl rfl rfl
  exact ⟨h.1, h.2 askStubAllBad parseStub 3 "diagnose the pod" (by omega)
    (fun i p _ _ => ⟨"oops", "invalid character", rfl, rfl⟩)⟩

/-! ## C5 — the iteration budget -/

theorem sessionLoop_max_queries (interact : Nat → String → Except String AgentResponse)
    (validate : String → Bool × String × Option String)
    (runE : String → String × Option String) (ctxErr : Nat → Option String)
    (hctx : ∀ i, ctxErr i = none)
    (hint : ∀ i p, ∃ r, interact i p = .ok r ∧ r.needMoreData = true ∧ r.runCommand ≠ "") :
    ∀ (fuel callIdx : Nat) (prompt : String) (mr : AgentResponse)
      (cache : List (String × String)), mr.needMoreData = true →
      (sessionLoop interact validate runE ctxErr fuel callIdx prompt mr cache).answer =
        "Analysis incomplete. Reached maximum number of queries." ∧
      (sessionLoop interact validate runE ctxErr fuel callIdx prompt mr cache).error = none ∧
      (sessionLoop interact validate runE ctxErr fuel callIdx prompt mr cache).prompts.length =
        fuel := by
  intro fuel
  induction fuel with
  | zero => intro callIdx prompt mr cache hmr; simp [sessionLoop, hmr]
  | succ fuel ih =>
      intro callIdx prompt mr cache hmr
      obtain ⟨r, hr, hneed, hcmd⟩ := hint callIdx prompt
      have hrest := ih (callIdx + 1)
        (handleCommand validate runE cache r.runCommand).1 r
        (handleCommand validate runE cache r.runCommand).2.1 hneed
      simp [sessionLoop, hmr, hctx callIdx, hr, hneed, hcmd, hrest.1, hrest.2.1, hrest.2.2]

/-- C5: if every parsed model response has `need_more_data` set and
proposes a command, a session with the default budget of 7 iterations
makes exactly 7 model calls and ends with the fixed incomplete-analysis
message and no error, whatever the approval and execution collaborators
do. -/
theorem c5_max_iterations (interact : Nat → String → Except String AgentResponse)
    (validate : String → Bool × String × Option String)
    (runE : String → String × Option String) (ctxErr : Nat → Option String) (q : String)
    (hctx : ∀ i, ctxErr i = none)
    (hint : ∀ i p, ∃ r, interact i p = .ok r ∧ r.needMoreData = true ∧ r.runCommand ≠ "") :
    (startSession interact validate runE ctxErr q).answer =
      "Analysis incomplete. Reached maximum number of queries." ∧
    (startSession interact validate runE ctxErr q).error = none ∧
    (startSession interact validate runE ctxErr q).prompts.length = 7 :=
  sessionLoop_max_queries interact validate runE ctxErr hctx hint
    numberOfQueries 0 q
    { finalAnswer := "", runCommand := "", needMoreData := true, reason := "" } [] rfl

/-- C5 witness. -/
theorem c5_max_iterations_witness :
    (startSession interactStubCmd approveAllowStub runStubOk ctxAlive
      "why is my pod crashing").answer =
      "Analysis incomplete. Reached maximum number of queries." ∧
    (startSession interactStubCmd approveAllowStub runStubOk ctxAlive
      "why is my pod crashing").error = none ∧
    (startSession interactStubCmd approveAllowStub runStubOk ctxAlive
      "why is my pod crashing").prompts.length = 7 :=
  c5_max_iterations interactStubCmd approveAllowStub runStubOk ctxAlive
    "why is my pod crashing" (fun _ => rfl)
    (fun _ _ => ⟨{ finalAnswer := "", runCommand := "kubectl get pods"
                   needMoreData := true, reason := "inspect the pods" },
      rfl, rfl, by decide⟩)

/-! ## C6 — rejection becomes the next prompt, no execution -/

theorem sessionLoop_prompts_head (interact : Nat → String → Except String AgentResponse)
    (validate : String → Bool × String × Option String)
    (runE : String → String × Option String) (ctxErr : Nat → Option String)
    (fuel idx : Nat) (pr : String) (mr2 : AgentResponse) (cache2 : List (String × String))
    (hneed : mr2.needMoreData = true) (hctx : ctxErr idx = none) :
    (sessionLoop interact validate runE ctxErr (fuel + 1) idx pr mr2 cache2).prompts.head? =
      some pr := by
  rcases hi : interact idx pr with e | resp2
  · simp [sessionLoop, hneed, hctx, hi]
  · by_cases hb1 : resp2.runCommand ≠ "" ∧ resp2.needMoreData = true
    · simp [sessionLoop, hneed, hctx, hi, hb1]
    · by_cases hb2 : resp2.needMoreData = true
      · by_cases hrc : resp2.runCommand = "" <;>
          simp [sessionLoop, hneed, hctx, hi, hb1, hb2, hrc]
      · simp [sessionLoop, hneed, hctx, hi, hb1, hb2]

/-- C6: when the model proposes a command that is not in the session's
result cache and the approval collaborator rejects it with reason `r`
and no error, `handleCommand` returns exactly `r` as the next prompt,
leaves the cache unchanged and never invokes the executer's `Run`; in
the session loop the very next prompt sent to the model is exactly `r`,
and the iteration contributes nothing to the trace of executed
commands. -/
theorem c6_rejection_prompt (interact : Nat → String → Except String AgentResponse)
    (validate : String → Bool × String × Option String)
    (runE : String → String × Option String) (ctxErr : Nat → Option String)
    (f n : Nat) (p : String) (mr resp : AgentResponse)
    (cache : List (String × String)) (c r : String)
    (hmr : mr.needMoreData = true)
    (hctx1 : ctxErr n = none) (hctx2 : ctxErr (n + 1) = none)
    (hint : interact n p = .ok resp) (hneed : resp.needMoreData = true)
    (hcmd : resp.runCommand = c) (hc : c ≠ "")
    (hmiss : lookupCache cache c = none)
    (hval : validate c = (false, r, none)) :
    handleCommand validate runE cache c = (r, cache, []) ∧
    (∃ rest, (sessionLoop interact validate runE ctxErr (f + 2) n p mr cache).prompts =
      p :: r :: rest) ∧
    (sessionLoop interact validate runE ctxErr (f + 2) n p mr cache).ran =
      (sessionLoop interact validate runE ctxErr (f + 1) (n + 1) r resp cache).ran := by
  have hhandle : handleCommand validate runE cache c = (r, cache, []) := by
    simp [handleCommand, hmiss, hval]
  refine ⟨hhandle, ?_, ?_⟩
  · have houter : (sessionLoop interact validate runE ctxErr (f + 2) n p mr cache).prompts =
        p :: (sessionLoop interact validate runE ctxErr (f + 1) (n + 1) r resp cache).prompts := by
      simp [sessionLoop, hmr, hctx1, hint, hneed, hcmd, hc, hhandle]
    have hhead := sessionLoop_prompts_head interact validate runE ctxErr f (n + 1) r resp cache
      hneed hctx2
    rcases hp : (sessionLoop interact validate runE ctxErr (f + 1) (n + 1) r resp cache).prompts
      with _ | ⟨a, rest⟩
    · rw [hp] at hhead; simp at hhead
    · rw [hp] at hhead
      simp only [List.head?] at hhead
      obtain rfl : a = r := by injection hhead
      exact ⟨rest, by rw [houter, hp]⟩
  · simp [sessionLoop, hmr, hctx1, hint, hneed, hcmd, hc, hhandle]

/-- C6 witness. -/
theorem c6_rejection_prompt_witness :
    handleCommand approveRejectStub runStubOk [] "rm -rf /" =
      ("command rejected by user", [], []) ∧
    (∃ rest, (sessionLoop interactStubReject approveRejectStub runStubOk ctxAlive 2 0
      "why is my pod crashing"
      { finalAnswer := "", runCommand := "", needMoreData := true, reason := "" } []).prompts =
      "why is my pod crashing" :: "command rejected by user" :: rest) ∧
    (sessionLoop interactStubReject approveRejectStub runStubOk ctxAlive 2 0
      "why is my pod crashing"
      { finalAnswer := "", runCommand := "", needMoreData := true, reason := "" } []).ran =
      (sessionLoop interactStubReject approveRejectStub runStubOk ctxAlive 1 1
        "command rejected by user"
        { finalAnswer := "", runCommand := "rm -rf /", needMoreData := true, reason := "oops" }
        []).ran :=
  c6_rejection_prompt interactStubReject approveRejectStub runStubOk ctxAlive 0 0
    "why is my pod crashing"
    { finalAnswer := "", runCommand := "", needMoreData := true, reason := "" }
    { finalAnswer := "", runCommand := "rm -rf /", needMoreData := true, reason := "oops" }
    [] "rm -rf /" "command rejected by user"
    rfl rfl rfl rfl rfl rfl (by decide) rfl rfl

end Klama
